import Mathlib

/-!
# Verification of the f1-pecking-order pace normalization and ranking engine

A shallow embedding of `src/pace_analyzer.py` (with its configuration from
`src/config.py`).  Python floats are modelled as rationals (`ℚ`), Python
`None` as `Option.none`, and the SQL reads of the external store as explicit
list-valued inputs.  Dictionary lookups with a default (`dict.get(k, d)`)
are modelled by association-list lookup, and `defaultdict` grouping loops by
an order-preserving `group_by`.
-/

namespace F1

/-- `src/config.py` — `TIRE_COMPOUND_DELTAS`: seconds faster than HARD
(negative = faster). -/
def TIRE_COMPOUND_DELTAS : List (String × ℚ) :=
  [("SOFT", -1), ("MEDIUM", -1/2), ("HARD", 0), ("INTERMEDIATE", 0), ("WET", 0)]

/-- `src/config.py` — `TIRE_DEGRADATION_PER_LAP` (seconds per lap of age). -/
def TIRE_DEGRADATION_PER_LAP : ℚ := 3/100

/-- `src/config.py` — `FUEL_EFFECT_PER_KG` (seconds per kg of fuel). -/
def FUEL_EFFECT_PER_KG : ℚ := 33/1000

/-- `src/config.py` — `FUEL_CONSUMPTION_PER_LAP` (kg). -/
def FUEL_CONSUMPTION_PER_LAP : ℚ := 9/5

/-- `src/config.py` — `QUALI_FUEL_LOAD_KG`. -/
def QUALI_FUEL_LOAD_KG : ℚ := 5

/-- `src/config.py` — `RACE_START_FUEL_LOAD_KG`. -/
def RACE_START_FUEL_LOAD_KG : ℚ := 110

/-- `src/config.py` — `SESSION_WEIGHTS`. -/
def SESSION_WEIGHTS : List (String × ℚ) :=
  [("Practice 1", 1/2), ("Practice 2", 7/10), ("Practice 3", 3/5),
   ("Sprint Qualifying", 4/5), ("Sprint", 4/5), ("Qualifying", 1), ("Race", 1)]

/-- Python `dict.get(key, default)` on a string-keyed table. -/
def dictGet (table : List (String × ℚ)) (key : String) (dflt : ℚ) : ℚ :=
  match table.find? (fun p => p.1 == key) with
  | some p => p.2
  | none => dflt

/-- `SESSION_WEIGHTS.get(session_type, 0.5)` as used throughout the analyzer. -/
def session_weight (session_type : String) : ℚ :=
  dictGet SESSION_WEIGHTS session_type (1/2)

/-- `TIRE_COMPOUND_DELTAS.get(compound, 0)` — the compound may be a SQL NULL
(`none`), which like any unknown key yields the default 0. -/
def compound_delta_of (compound : Option String) : ℚ :=
  match compound with
  | none => 0
  | some c => dictGet TIRE_COMPOUND_DELTAS c 0

/-- `src/pace_analyzer.py` — `normalize_lap_time` (lines 41–150).  The Python
signature has `total_laps: int = 58`; the default is passed explicitly at the
two call sites that omit it.  Returns `none` exactly when `raw_lap_time` is
`None`. -/
def normalize_lap_time (raw_lap_time : Option ℚ) (compound : Option String)
    (tire_age : Option ℤ) (session_type : String) (lap_number : ℕ)
    (total_laps : ℕ) : Option ℚ :=
  match raw_lap_time with
  | none => none
  | some raw =>
    -- ADJUSTMENT 1: tire compound, re-based to MEDIUM
    let compound_delta := compound_delta_of compound
    let medium_delta := dictGet TIRE_COMPOUND_DELTAS "MEDIUM" (-1/2)
    let compound_adjustment := compound_delta - medium_delta
    let t1 := raw - compound_adjustment
    -- ADJUSTMENT 2: tire degradation (only when the age is known and > 0)
    let t2 :=
      match tire_age with
      | none => t1
      | some age => if age > 0 then t1 - (age : ℚ) * TIRE_DEGRADATION_PER_LAP else t1
    -- ADJUSTMENT 3: fuel load, branching on session type
    let t3 :=
      if session_type = "Race" then
        let fuel_burned := (lap_number : ℚ) * FUEL_CONSUMPTION_PER_LAP
        let current_fuel := max 0 (RACE_START_FUEL_LOAD_KG - fuel_burned)
        let target_fuel : ℚ := 50
        let fuel_difference := current_fuel - target_fuel
        t2 - fuel_difference * FUEL_EFFECT_PER_KG
      else if session_type = "Sprint" then
        let sprint_start_fuel := RACE_START_FUEL_LOAD_KG / 3
        let fuel_burned := (lap_number : ℚ) * FUEL_CONSUMPTION_PER_LAP
        let current_fuel := max 0 (sprint_start_fuel - fuel_burned)
        let target_fuel : ℚ := 50
        let fuel_difference := current_fuel - target_fuel
        t2 - fuel_difference * FUEL_EFFECT_PER_KG
      else if session_type = "Qualifying" ∨ session_type = "Sprint Qualifying" then
        let fuel_difference := QUALI_FUEL_LOAD_KG - 50
        t2 - fuel_difference * FUEL_EFFECT_PER_KG
      else
        t2
    some t3

/-! ## Generic helpers: Python truthiness, `or`-defaults, list statistics, grouping -/

/-- Python `s or dflt` on an optional string (`None` and `""` are falsy). -/
def py_or_str (s : Option String) (dflt : String) : String :=
  match s with
  | none => dflt
  | some v => if v = "" then dflt else v

/-- Python truthiness of an optional string. -/
def py_truthy_str (s : Option String) : Bool :=
  match s with
  | none => false
  | some v => !(v == "")

/-- Python `min` over a list of rationals (only ever applied to non-empty
lists by the source; `0` stands in for the empty-list `ValueError`). -/
def list_min : List ℚ → ℚ
  | [] => 0
  | x :: xs => xs.foldl min x

/-- Python `max` over a list of rationals (only ever applied to non-empty
lists by the source). -/
def list_max : List ℚ → ℚ
  | [] => 0
  | x :: xs => xs.foldl max x

/-- `statistics.mean`. -/
def list_mean (l : List ℚ) : ℚ := l.sum / l.length

/-- The square of `statistics.stdev` (sample standard deviation).  The source
stores the standard deviation itself; its square root is irrational in
general, so the embedding carries the variance instead — no claim concerns
the consistency metric. -/
def sample_variance (l : List ℚ) : ℚ :=
  if 1 < l.length then
    let m := list_mean l
    (l.map (fun x => (x - m) ^ 2)).sum / ((l.length : ℚ) - 1)
  else 0

/-- Fuel-limited recursion for `group_by` (the fuel starts at the list
length and never runs out). -/
def group_fuel {α β K : Type} [DecidableEq K] (keyOf : α → K) (valOf : α → β) :
    ℕ → List α → List (K × List β)
  | _, [] => []
  | 0, _ :: _ => []
  | n + 1, x :: xs =>
    (keyOf x, valOf x :: (xs.filter (fun y => decide (keyOf y = keyOf x))).map valOf) ::
      group_fuel keyOf valOf n (xs.filter (fun y => !decide (keyOf y = keyOf x)))

/-- A Python `defaultdict(list)` grouping loop
(`d[keyOf x].append(valOf x)` for `x` in `xs`, then iterate `d.items()`):
keys appear in first-appearance order, each key's values in input order. -/
def group_by {α β K : Type} [DecidableEq K] (keyOf : α → K) (valOf : α → β)
    (xs : List α) : List (K × List β) :=
  group_fuel keyOf valOf xs.length xs

/-! ## Data retrieval model

`get_all_valid_laps` joins laps with driver/session/meeting metadata; one
row of its result is a `RankLap`.  The rows themselves come from the
external store, so the pipeline functions below take the row list as an
argument.  `get_session_total_laps` is likewise passed in as a function
from session key to lap count. -/

structure RankLap where
  session_key : ℕ
  driver_number : ℕ
  lap_number : ℕ
  lap_duration : Option ℚ
  compound : Option String
  tire_age : Option ℤ
  session_type : String
  meeting_key : ℕ
  driver_name : String
  team_name : Option String
  team_color : Option String
  name_acronym : String
deriving DecidableEq

/-! ## Driver aggregator (`calculate_driver_pace_scores`, lines 237–361) -/

/-- Lines 271–278: normalize one fetched lap, with the session's total lap
count looked up through the `session_totals` cache. -/
def normalize_rank_lap (stot : ℕ → ℕ) (lap : RankLap) : Option ℚ :=
  normalize_lap_time lap.lap_duration lap.compound lap.tire_age lap.session_type
    lap.lap_number (stot lap.session_key)

/-- Lines 281–284: group the laps having a defined (`is not None`)
normalized time by driver name, pairing each lap with that time. -/
def driver_laps_of (all_laps : List RankLap) (stot : ℕ → ℕ) :
    List (String × List (RankLap × ℚ)) :=
  group_by (fun p => p.1.driver_name) (fun p => p)
    (all_laps.filterMap (fun l => (normalize_rank_lap stot l).map (fun t => (l, t))))

/-- Lines 299–302: one driver's normalized times grouped by session type. -/
def session_time_groups (laps : List (RankLap × ℚ)) : List (String × List ℚ) :=
  group_by (fun p => p.1.session_type) (fun p => p.2) laps

/-- Lines 313–318: sort a session type's times ascending and keep the best
10% of them, floor-divided, clamped to at least 3 and at most 20. -/
def best_slice (times : List ℚ) : List ℚ :=
  let sorted_times := times.insertionSort (· ≤ ·)
  let num_best := max 3 (min 20 (times.length / 10))
  sorted_times.take num_best

/-- Lines 306–336: the `(time, weight)` pairs pooled across session types
for one driver — every best-slice entry tagged with its session weight. -/
def driver_weighted_times (laps : List (RankLap × ℚ)) : List (ℚ × ℚ) :=
  (session_time_groups laps).flatMap (fun g =>
    (best_slice g.2).map (fun t => (t, session_weight g.1)))

structure SessionDetail where
  average_pace : ℚ
  best_lap : ℚ
  lap_count : ℕ
  weight : ℚ
deriving DecidableEq

structure DriverScore where
  driver_name : String
  team_name : Option String
  team_color : String
  name_acronym : String
  pace_score : ℚ
  consistency_sq : ℚ
  total_laps : ℕ
  session_details : List (String × SessionDetail)
  best_normalized_lap : ℚ
deriving DecidableEq

/-- Lines 289–359: the score record for one driver, `none` on the two
`continue` guards (empty lap list, empty pooled weighted times). -/
def driver_score_of (dname : String) (laps : List (RankLap × ℚ)) : Option DriverScore :=
  match laps with
  | [] => none
  | first_lap :: _ =>
    let groups := session_time_groups laps
    let weighted_times := driver_weighted_times laps
    match weighted_times with
    | [] => none
    | _ =>
      let total_weight := (weighted_times.map (fun p => p.2)).sum
      let weighted_avg := (weighted_times.map (fun p => p.1 * p.2)).sum / total_weight
      let all_best_times := weighted_times.map (fun p => p.1)
      some {
        driver_name := dname
        team_name := first_lap.1.team_name
        team_color := py_or_str first_lap.1.team_color "#888888"
        name_acronym := first_lap.1.name_acronym
        pace_score := weighted_avg
        consistency_sq := sample_variance all_best_times
        total_laps := laps.length
        session_details := groups.map (fun g =>
          (g.1, { average_pace := list_mean (best_slice g.2)
                  best_lap := list_min g.2
                  lap_count := g.2.length
                  weight := session_weight g.1 }))
        best_normalized_lap := list_min (laps.map (fun p => p.2)) }

/-- `calculate_driver_pace_scores` — the returned dict's values in insertion
order. -/
def calculate_driver_pace_scores (all_laps : List RankLap) (stot : ℕ → ℕ) :
    List DriverScore :=
  (driver_laps_of all_laps stot).filterMap (fun g => driver_score_of g.1 g.2)

/-! ## Team aggregator (`calculate_team_pace_scores`, lines 364–410) -/

structure TeamScore where
  team_name : String
  team_color : String
  pace_score : ℚ
  team_average : ℚ
  driver_gap : ℚ
  drivers : List String
  total_laps : ℕ
deriving DecidableEq

/-- Lines 377–381: drivers with a truthy team name grouped by team. -/
def team_drivers_of (driver_scores : List DriverScore) :
    List (String × List DriverScore) :=
  group_by (fun d => d.team_name.getD "") (fun d => d)
    (driver_scores.filter (fun d => py_truthy_str d.team_name))

/-- Python `min(drivers, key=lambda d: d['pace_score'])`: scan the tail,
keeping the first element whose key is strictly smaller than the best so
far. -/
def min_by_pace (best : DriverScore) : List DriverScore → DriverScore
  | [] => best
  | d :: ds => if d.pace_score < best.pace_score then min_by_pace d ds else min_by_pace best ds

/-- Lines 386–408: one team's score; `none` on the (unreachable)
`if not drivers: continue` guard. -/
def team_score_of (tname : String) (ds : List DriverScore) : Option TeamScore :=
  match ds with
  | [] => none
  | d0 :: rest =>
    let best_driver := min_by_pace d0 rest
    some {
      team_name := tname
      team_color := if d0.team_color = "" then "#888888" else d0.team_color
      pace_score := best_driver.pace_score
      team_average := list_mean (ds.map (fun d => d.pace_score))
      driver_gap := list_max (ds.map (fun d => d.pace_score)) - best_driver.pace_score
      drivers := ds.map (fun d => d.driver_name)
      total_laps := (ds.map (fun d => d.total_laps)).sum }

/-- `calculate_team_pace_scores`. -/
def calculate_team_pace_scores (driver_scores : List DriverScore) : List TeamScore :=
  (team_drivers_of driver_scores).filterMap (fun g => team_score_of g.1 g.2)

/-! ## Ranking builder (`calculate_rankings`, lines 413–463) -/

structure Ranked (α : Type) where
  entry : α
  position : ℕ
  gap_to_leader : ℚ
deriving DecidableEq

/-- `sorted(entities, key=...)` (a stable sort) followed by the
position/gap-to-leader loop of lines 436–459. -/
def rank_by {α : Type} (key : α → ℚ) (l : List α) : List (Ranked α) :=
  let sorted_list := l.insertionSort (fun a b => key a ≤ key b)
  match sorted_list with
  | [] => []
  | leader :: _ =>
    sorted_list.enum.map (fun p =>
      { entry := p.2, position := p.1 + 1, gap_to_leader := key p.2 - key leader })

/-- `calculate_rankings`: driver scores, then team scores, each stably
sorted ascending by pace score and annotated with position and gap; the
empty-data early return gives `([], [])`. -/
def calculate_rankings (all_laps : List RankLap) (stot : ℕ → ℕ) :
    List (Ranked DriverScore) × List (Ranked TeamScore) :=
  let driver_scores := calculate_driver_pace_scores all_laps stot
  match driver_scores with
  | [] => ([], [])
  | _ =>
    let team_scores := calculate_team_pace_scores driver_scores
    (rank_by (fun d => d.pace_score) driver_scores,
     rank_by (fun t => t.pace_score) team_scores)

/-! ## Session-level pecking order (`get_session_pecking_order`, lines 554–727) -/

structure SessionLap where
  driver_number : ℕ
  lap_number : ℕ
  lap_duration : Option ℚ
  sector_1_duration : Option ℚ
  sector_2_duration : Option ℚ
  sector_3_duration : Option ℚ
  speed_trap : Option ℚ
  compound : Option String
  tire_age : Option ℤ
  is_valid_for_ranking : Bool
  driver_name : String
  team_name : Option String
  team_color : Option String
  name_acronym : String
deriving DecidableEq

/-- One stored session together with its lap rows (in the lap query's
`ORDER BY driver_number, lap_number` order). -/
structure Session where
  session_key : ℕ
  session_name : String
  session_type : String
  laps : List SessionLap
deriving DecidableEq

/-- The lap query's WHERE clause:
`is_valid_for_ranking = 1 AND lap_duration IS NOT NULL`. -/
def session_valid_laps (s : Session) : List SessionLap :=
  s.laps.filter (fun l => l.is_valid_for_ranking && l.lap_duration.isSome)

/-- Per-driver accumulator of the lap loop (lines 624–667). -/
structure DriverSessionData where
  laps : List (SessionLap × Option ℚ)
  best_lap : Option (SessionLap × ℚ)
  best_sector_1 : Option ℚ
  best_sector_2 : Option ℚ
  best_sector_3 : Option ℚ
  compounds_used : List String
  speed_traps : List ℚ
deriving DecidableEq

def empty_driver_data : DriverSessionData :=
  { laps := [], best_lap := none, best_sector_1 := none, best_sector_2 := none,
    best_sector_3 := none, compounds_used := [], speed_traps := [] }

/-- Lines 654–659: `if sector_time:` (so a 0.0 sector is skipped) and then
keep the smaller. -/
def update_best_sector (cur : Option ℚ) (sector : Option ℚ) : Option ℚ :=
  match sector with
  | none => cur
  | some v =>
    if v = 0 then cur
    else
      match cur with
      | none => some v
      | some b => if v < b then some v else cur

/-- Lines 661–663: `if lap['compound']: compounds_used.add(...)` — a set,
modelled as a first-insertion-ordered duplicate-free list. -/
def add_compound (used : List String) (compound : Option String) : List String :=
  match compound with
  | none => used
  | some c => if c = "" then used else if c ∈ used then used else used ++ [c]

/-- Lines 632–667: fold one lap into a driver's accumulated data.  The
best-lap update is guarded by `if normalized and ...`, so a normalized time
of exactly 0.0 (like an undefined one) never becomes the best lap. -/
def update_driver_data (session_type : String) (total_laps : ℕ)
    (d : DriverSessionData) (lap : SessionLap) : DriverSessionData :=
  let normalized := normalize_lap_time lap.lap_duration lap.compound lap.tire_age
    session_type lap.lap_number total_laps
  { laps := d.laps ++ [(lap, normalized)]
    best_lap :=
      match normalized with
      | none => d.best_lap
      | some t =>
        if t = 0 then d.best_lap
        else
          match d.best_lap with
          | none => some (lap, t)
          | some b => if t < b.2 then some (lap, t) else d.best_lap
    best_sector_1 := update_best_sector d.best_sector_1 lap.sector_1_duration
    best_sector_2 := update_best_sector d.best_sector_2 lap.sector_2_duration
    best_sector_3 := update_best_sector d.best_sector_3 lap.sector_3_duration
    compounds_used := add_compound d.compounds_used lap.compound
    speed_traps :=
      match lap.speed_trap with
      | none => d.speed_traps
      | some v => if v = 0 then d.speed_traps else d.speed_traps ++ [v] }

/-- The whole `driver_data` defaultdict: laps grouped by driver name (keys
in first-appearance order), each group folded through
`update_driver_data`. -/
def driver_data_of (session_type : String) (total_laps : ℕ)
    (laps : List SessionLap) : List (String × DriverSessionData) :=
  (group_by (fun l => l.driver_name) (fun l => l) laps).map
    (fun g => (g.1, g.2.foldl (update_driver_data session_type total_laps) empty_driver_data))

structure SessionDriverEntry where
  driver_name : String
  name_acronym : String
  team_name : Option String
  team_color : String
  best_lap : Option ℚ
  normalized_time : ℚ
  sector_1 : Option ℚ
  sector_2 : Option ℚ
  sector_3 : Option ℚ
  compound : Option String
  lap_count : ℕ
  max_speed : Option ℚ
  compounds_used : List String
deriving DecidableEq

/-- Lines 671–694: build a driver's ranking entry; drivers without a
tracked best lap are skipped. -/
def driver_entry_of (dname : String) (d : DriverSessionData) : Option SessionDriverEntry :=
  match d.best_lap with
  | none => none
  | some (bl, nt) =>
    some {
      driver_name := dname
      name_acronym := bl.name_acronym
      team_name := bl.team_name
      team_color := py_or_str bl.team_color "#888888"
      best_lap := bl.lap_duration
      normalized_time := nt
      sector_1 := d.best_sector_1
      sector_2 := d.best_sector_2
      sector_3 := d.best_sector_3
      compound := bl.compound
      lap_count := d.laps.length
      max_speed :=
        match d.speed_traps with
        | [] => none
        | v :: vs => some (vs.foldl max v)
      compounds_used := d.compounds_used }

/-- Line 697's sort key:
`d['normalized_time'] if d['normalized_time'] else float('inf')`. -/
def entry_sort_key (e : SessionDriverEntry) : WithTop ℚ :=
  if e.normalized_time = 0 then ⊤ else (e.normalized_time : WithTop ℚ)

structure RankedSessionEntry where
  entry : SessionDriverEntry
  position : ℕ
  gap_to_leader : Option ℚ
deriving DecidableEq

/-- Lines 696–704: stable sort by the truthiness-aware key, then 1-based
positions and gap to the leader (`None` gap for a falsy normalized time). -/
def rank_session_entries (entries : List SessionDriverEntry) : List RankedSessionEntry :=
  let sorted_entries := entries.insertionSort (fun a b => entry_sort_key a ≤ entry_sort_key b)
  match sorted_entries with
  | [] => []
  | leader :: _ =>
    sorted_entries.enum.map (fun p =>
      match p with
      | (i, e) =>
        { entry := e, position := i + 1,
          gap_to_leader :=
            if e.normalized_time = 0 then none
            else some (e.normalized_time - leader.normalized_time) })

/-- Lines 707–717: per-compound distinct-driver counts, sorted by compound
name. -/
def tire_summary_of (dd : List (String × DriverSessionData)) : List (String × ℕ) :=
  let all_compounds := dd.foldl
    (fun acc g => g.2.compounds_used.foldl
      (fun a c => if c ∈ a then a else a ++ [c]) acc) []
  (all_compounds.map (fun c => (c, (dd.filter (fun g => c ∈ g.2.compounds_used)).length))).insertionSort
    (fun a b => a.1 ≤ b.1)

structure SessionPeckingOrder where
  session_key : ℕ
  session_name : String
  session_type : String
  driver_rankings : List RankedSessionEntry
  tire_summary : List (String × ℕ)
  driver_count : ℕ
  lap_count : ℕ
deriving DecidableEq

/-- Line 620: `max(lap['lap_number'] for lap in laps)` (only evaluated on a
non-empty lap list; 0 stands in for the empty-generator `ValueError`). -/
def session_total_laps_of (laps : List SessionLap) : ℕ :=
  match laps with
  | [] => 0
  | l0 :: rest => rest.foldl (fun m l => max m l.lap_number) l0.lap_number

/-- Lines 611–727: the session pecking order for a session already fetched
from the store (empty-lap early return included). -/
def session_pecking_order_of (s : Session) : SessionPeckingOrder :=
  match session_valid_laps s with
  | [] =>
    { session_key := s.session_key, session_name := s.session_name,
      session_type := s.session_type, driver_rankings := [], tire_summary := [],
      driver_count := 0, lap_count := 0 }
  | _ :: _ =>
    let laps := session_valid_laps s
    let total_laps := session_total_laps_of laps
    let dd := driver_data_of s.session_type total_laps laps
    let ranked := rank_session_entries (dd.filterMap (fun g => driver_entry_of g.1 g.2))
    { session_key := s.session_key, session_name := s.session_name,
      session_type := s.session_type,
      driver_rankings := ranked,
      tire_summary := tire_summary_of dd,
      driver_count := ranked.length,
      lap_count := laps.length }

/-- Lines 569–583 + the rest: the session-info query returns no row for an
unknown session key, and the function then returns `None`. -/
def get_session_pecking_order (store : List Session) (session_key : ℕ) :
    Option SessionPeckingOrder :=
  (store.find? (fun s => s.session_key == session_key)).map session_pecking_order_of

/-! ## Meeting (weekend) pecking order (`get_meeting_pecking_order`, lines 730–835) -/

structure SessionSummary where
  session_key : ℕ
  session_name : String
  session_type : String
  top_3 : List RankedSessionEntry
  driver_count : ℕ
  lap_count : ℕ
deriving DecidableEq

/-- Lines 770–783: per-session previews, skipping sessions whose pecking
order has no ranked drivers. -/
def session_summaries_of (sessions : List Session) : List SessionSummary :=
  sessions.filterMap (fun s =>
    let spo := session_pecking_order_of s
    match spo.driver_rankings with
    | [] => none
    | _ =>
      some { session_key := s.session_key, session_name := s.session_name,
             session_type := s.session_type, top_3 := spo.driver_rankings.take 3,
             driver_count := spo.driver_count, lap_count := spo.lap_count })

/-- Lines 785–795 flattened: for each session (in meeting order) with a
non-empty ranking, each ranked driver's entry tagged with the session's
type. -/
def meeting_pooled (sessions : List Session) : List (RankedSessionEntry × String) :=
  sessions.flatMap (fun s =>
    let spo := session_pecking_order_of s
    match spo.driver_rankings with
    | [] => []
    | _ => spo.driver_rankings.map (fun e => (e, s.session_type)))

/-- The `all_driver_times` defaultdict: per driver, the
`(normalized_time, session_type)` pairs pooled across the sessions. -/
def all_driver_times (sessions : List Session) : List (String × List (ℚ × String)) :=
  group_by (fun p => p.1.entry.driver_name) (fun p => (p.1.entry.normalized_time, p.2))
    (meeting_pooled sessions)

/-- Python dict assignment `d[k] = v` on an association list. -/
def upsert {β : Type} (k : String) (v : β) : List (String × β) → List (String × β)
  | [] => [(k, v)]
  | (k0, v0) :: rest => if k0 = k then (k0, v) :: rest else (k0, v0) :: upsert k v rest

/-- The `driver_info` dict (last write wins). -/
def meeting_driver_info (sessions : List Session) :
    List (String × (String × Option String × String)) :=
  (meeting_pooled sessions).foldl
    (fun acc p => upsert p.1.entry.driver_name
      (p.1.entry.name_acronym, p.1.entry.team_name, p.1.entry.team_color) acc) []

structure OverallEntry where
  driver_name : String
  name_acronym : String
  team_name : Option String
  team_color : String
  pace : ℚ
  session_count : ℕ
deriving DecidableEq

/-- Lines 798–818: one weekend-overall entry per pooled driver, paced by
the session-type-weighted mean of the pooled times.  The `driver_info`
lookup cannot miss (every pooled driver was recorded); a junk default keeps
the lookup total. -/
def overall_entries_of (sessions : List Session) : List OverallEntry :=
  let info := meeting_driver_info sessions
  (all_driver_times sessions).map (fun g =>
    match g with
    | (dname, times) =>
      let weighted_times := times.map (fun t => (t.1, session_weight t.2))
      let total_weight := (weighted_times.map (fun p => p.2)).sum
      let weighted_avg :=
        if 0 < total_weight then (weighted_times.map (fun p => p.1 * p.2)).sum / total_weight
        else 0
      let i := ((info.find? (fun p => p.1 == dname)).map (fun p => p.2)).getD ("", none, "")
      { driver_name := dname, name_acronym := i.1, team_name := i.2.1,
        team_color := i.2.2, pace := weighted_avg, session_count := times.length })

structure MeetingPeckingOrder where
  meeting_key : ℕ
  overall_rankings : List (Ranked OverallEntry)
  session_summaries : List SessionSummary
  sessions : List Session
deriving DecidableEq

/-- Lines 765–835 for a meeting already fetched from the store (the source
names the ranked entries' gap field `gap`; `Ranked` reuses
`gap_to_leader`). -/
def meeting_pecking_order_of (mk : ℕ) (sessions : List Session) : MeetingPeckingOrder :=
  { meeting_key := mk
    overall_rankings := rank_by (fun e => e.pace) (overall_entries_of sessions)
    session_summaries := session_summaries_of sessions
    sessions := sessions }

/-- A meeting row with its sessions (in the session query's
`ORDER BY date_start ASC` order). -/
structure Meeting where
  meeting_key : ℕ
  sessions : List Session
deriving DecidableEq

/-- Lines 740–754: unknown meeting key gives `None`. -/
def get_meeting_pecking_order (meetings : List Meeting) (meeting_key : ℕ) :
    Option MeetingPeckingOrder :=
  (meetings.find? (fun m => m.meeting_key == meeting_key)).map
    (fun m => meeting_pecking_order_of m.meeting_key m.sessions)

/-! ## Meeting breakdown (`get_meeting_breakdown`, lines 466–547)

Only the per-meeting `driver_times` pooling is needed by the claims: lines
501–511 normalize each lap of the meeting — passing no `total_laps`, so the
default 58 applies — and keep it only under `if normalized:`, which drops
both an undefined (`None`) and an exactly-0.0 normalized time. -/
def meeting_driver_times (laps : List RankLap) : List (String × List ℚ) :=
  group_by (fun p => p.1) (fun p => p.2)
    (laps.filterMap (fun lap =>
      match normalize_lap_time lap.lap_duration lap.compound lap.tire_age
        lap.session_type lap.lap_number 58 with
      | none => none
      | some t => if t = 0 then none else some (lap.driver_name, t)))

/-! ## Normalizer decomposition

`normalize_lap_time` on a defined raw time is the raw time minus three
independent adjustments; the two helpers below name the degradation and
fuel terms so the per-claim theorems can speak about them. -/

/-- The degradation subtracted at lines 107–109 (0 when the age is unknown
or not positive). -/
def degradation_of (tire_age : Option ℤ) : ℚ :=
  match tire_age with
  | none => 0
  | some age => if age > 0 then (age : ℚ) * TIRE_DEGRADATION_PER_LAP else 0

/-- The fuel adjustment subtracted at lines 117–145 (0 for any session type
without a fuel model). -/
def fuel_adjustment_of (session_type : String) (lap_number : ℕ) : ℚ :=
  if session_type = "Race" then
    (max 0 (RACE_START_FUEL_LOAD_KG - (lap_number : ℚ) * FUEL_CONSUMPTION_PER_LAP) - 50)
      * FUEL_EFFECT_PER_KG
  else if session_type = "Sprint" then
    (max 0 (RACE_START_FUEL_LOAD_KG / 3 - (lap_number : ℚ) * FUEL_CONSUMPTION_PER_LAP) - 50)
      * FUEL_EFFECT_PER_KG
  else if session_type = "Qualifying" ∨ session_type = "Sprint Qualifying" then
    (QUALI_FUEL_LOAD_KG - 50) * FUEL_EFFECT_PER_KG
  else 0

theorem compound_delta_of_medium : compound_delta_of (some "MEDIUM") = -(1/2) := by
  simp [compound_delta_of, dictGet, TIRE_COMPOUND_DELTAS, List.find?]
  norm_num

theorem normalize_lap_time_some (raw : ℚ) (c : Option String) (a : Option ℤ)
    (st : String) (ln tl : ℕ) :
    normalize_lap_time (some raw) c a st ln tl =
      some (raw - (compound_delta_of c - compound_delta_of (some "MEDIUM"))
        - degradation_of a - fuel_adjustment_of st ln) := by
  have hm : dictGet TIRE_COMPOUND_DELTAS "MEDIUM" (-1/2) = -(1/2) := by
    simp [dictGet, TIRE_COMPOUND_DELTAS, List.find?]
    norm_num
  cases a with
  | none =>
    simp only [normalize_lap_time, degradation_of, fuel_adjustment_of, hm,
      compound_delta_of_medium, Option.some.injEq]
    split_ifs <;> ring
  | some age =>
    simp only [normalize_lap_time, degradation_of, fuel_adjustment_of, hm,
      compound_delta_of_medium, Option.some.injEq]
    split_ifs <;> ring

/-! ## Grouping lemmas -/

theorem group_fuel_sound {α β K : Type} [DecidableEq K] (keyOf : α → K) (valOf : α → β) :
    ∀ (n : ℕ) (xs : List α), xs.length ≤ n → ∀ k vs,
      (k, vs) ∈ group_fuel keyOf valOf n xs →
      vs = (xs.filter (fun y => decide (keyOf y = k))).map valOf ∧
        ∃ x ∈ xs, keyOf x = k := by
  intro n
  induction n with
  | zero =>
    intro xs hlen k vs hm
    cases xs with
    | nil => simp [group_fuel] at hm
    | cons x xs' => exact absurd hlen (by simp)
  | succ n ih =>
    intro xs hlen k vs hm
    cases xs with
    | nil => simp [group_fuel] at hm
    | cons x xs' =>
      simp only [group_fuel, List.mem_cons] at hm
      rcases hm with heq | htail
      · injection heq with hk hvs
        subst hk
        refine ⟨?_, x, List.mem_cons_self x xs', rfl⟩
        rw [hvs, List.filter_cons]
        simp
      · have hlen' : (xs'.filter (fun y => !decide (keyOf y = keyOf x))).length ≤ n :=
          le_trans (List.length_filter_le _ _) (by simpa using hlen)
        obtain ⟨hvs, x2, hx2mem, hx2key⟩ := ih _ hlen' k vs htail
        have hx2f := List.mem_filter.mp hx2mem
        have hkne : keyOf x ≠ k := by
          intro h
          have : keyOf x2 ≠ keyOf x := by simpa using hx2f.2
          exact this (hx2key.trans h.symm)
        refine ⟨?_, x2, List.mem_cons_of_mem _ hx2f.1, hx2key⟩
        rw [hvs, List.filter_filter, List.filter_cons]
        have hxk : (decide (keyOf x = k)) = false := by simpa using hkne
        rw [if_neg (by simp [hkne])]
        congr 1
        apply List.filter_congr
        intro a _
        by_cases ha : keyOf a = k
        · have h1 : keyOf a ≠ keyOf x := fun h => hkne (h.symm.trans ha)
          have h2 : ¬ k = keyOf x := fun h => hkne h.symm
          simp [ha, h1, h2]
        · simp [ha]

theorem group_by_sound {α β K : Type} [DecidableEq K] (keyOf : α → K) (valOf : α → β)
    (xs : List α) (k : K) (vs : List β) (hm : (k, vs) ∈ group_by keyOf valOf xs) :
    vs = (xs.filter (fun y => decide (keyOf y = k))).map valOf ∧
      ∃ x ∈ xs, keyOf x = k :=
  group_fuel_sound keyOf valOf xs.length xs (le_refl _) k vs hm

theorem group_fuel_keys_nodup {α β K : Type} [DecidableEq K] (keyOf : α → K) (valOf : α → β) :
    ∀ (n : ℕ) (xs : List α), xs.length ≤ n →
      (group_fuel keyOf valOf n xs).Pairwise (fun a b => a.1 ≠ b.1) := by
  intro n
  induction n with
  | zero =>
    intro xs hlen
    cases xs with
    | nil => simp [group_fuel]
    | cons x xs' => exact absurd hlen (by simp)
  | succ n ih =>
    intro xs hlen
    cases xs with
    | nil => simp [group_fuel]
    | cons x xs' =>
      have hlen' : (xs'.filter (fun y => !decide (keyOf y = keyOf x))).length ≤ n :=
        le_trans (List.length_filter_le _ _) (by simpa using hlen)
      refine List.Pairwise.cons ?_ (ih _ hlen')
      intro b hb
      obtain ⟨-, x2, hx2mem, hx2key⟩ := group_fuel_sound keyOf valOf n _ hlen' b.1 b.2
        (by simpa using hb)
      have : keyOf x2 ≠ keyOf x := by simpa using (List.mem_filter.mp hx2mem).2
      exact fun h => this (hx2key.trans h.symm)

theorem group_by_keys_nodup {α β K : Type} [DecidableEq K] (keyOf : α → K) (valOf : α → β)
    (xs : List α) : (group_by keyOf valOf xs).Pairwise (fun a b => a.1 ≠ b.1) :=
  group_fuel_keys_nodup keyOf valOf xs.length xs (le_refl _)

/-! ## Stable sort lemmas -/

/-- Stability of the embedded sort: filtering the sorted list down to any
single key value gives exactly the same-order filtering of the input. -/
theorem insertionSort_filter_stable {α : Type} (key : α → ℚ) (l : List α) (q : ℚ) :
    (l.insertionSort (fun a b => key a ≤ key b)).filter (fun a => decide (key a = q))
      = l.filter (fun a => decide (key a = q)) := by
  have hc : (l.filter (fun a => decide (key a = q))).Pairwise (fun a b => key a ≤ key b) := by
    apply List.pairwise_of_forall_mem_list
    intro a ha b hb
    have hA : key a = q := by simpa using (List.mem_filter.mp ha).2
    have hB : key b = q := by simpa using (List.mem_filter.mp hb).2
    rw [hA, hB]
  have hsub : List.Sublist (l.filter (fun a => decide (key a = q)))
      (l.insertionSort (fun a b => key a ≤ key b)) :=
    List.sublist_insertionSort hc (List.filter_sublist _)
  have hself : (l.filter (fun a => decide (key a = q))).filter (fun a => decide (key a = q))
      = l.filter (fun a => decide (key a = q)) := by
    rw [List.filter_eq_self]
    intro a ha
    exact (List.mem_filter.mp ha).2
  have hsub2 := hsub.filter (fun a => decide (key a = q))
  rw [hself] at hsub2
  have hperm : List.Perm
      ((l.insertionSort (fun a b => key a ≤ key b)).filter (fun a => decide (key a = q)))
      (l.filter (fun a => decide (key a = q))) :=
    (List.perm_insertionSort _ l).filter _
  exact (hsub2.eq_of_length hperm.length_eq.symm).symm

/-! ## Ranking builder lemmas -/

theorem rank_by_entries {α : Type} (key : α → ℚ) (l : List α) :
    (rank_by key l).map (fun re => re.entry)
      = l.insertionSort (fun a b => key a ≤ key b) := by
  unfold rank_by
  rcases h : l.insertionSort (fun a b => key a ≤ key b) with - | ⟨leader, rest⟩
  · simp
  · simp only [List.map_map]
    have hcomp : ((fun re : Ranked α => re.entry) ∘ fun p : ℕ × α =>
        ({ entry := p.2, position := p.1 + 1,
           gap_to_leader := key p.2 - key leader } : Ranked α)) = Prod.snd := by
      funext p
      rfl
    rw [hcomp, List.enum, List.enumFrom_map_snd]

theorem rank_by_length {α : Type} (key : α → ℚ) (l : List α) :
    (rank_by key l).length = l.length := by
  have := congrArg List.length (rank_by_entries key l)
  simpa using this

theorem rank_by_get {α : Type} (key : α → ℚ) (l : List α) (i : ℕ)
    (hi : i < (rank_by key l).length) :
    ∃ (hs : i < (l.insertionSort (fun a b => key a ≤ key b)).length)
      (hs0 : 0 < (l.insertionSort (fun a b => key a ≤ key b)).length),
    (rank_by key l).get ⟨i, hi⟩ =
      { entry := (l.insertionSort (fun a b => key a ≤ key b)).get ⟨i, hs⟩,
        position := i + 1,
        gap_to_leader := key ((l.insertionSort (fun a b => key a ≤ key b)).get ⟨i, hs⟩)
          - key ((l.insertionSort (fun a b => key a ≤ key b)).get ⟨0, hs0⟩) } := by
  have hlen : (rank_by key l).length = (l.insertionSort (fun a b => key a ≤ key b)).length := by
    have := congrArg List.length (rank_by_entries key l)
    simpa using this
  have hs : i < (l.insertionSort (fun a b => key a ≤ key b)).length := hlen ▸ hi
  have hs0 : 0 < (l.insertionSort (fun a b => key a ≤ key b)).length :=
    lt_of_le_of_lt (Nat.zero_le i) hs
  refine ⟨hs, hs0, ?_⟩
  revert hi hs hs0
  unfold rank_by
  rcases h : l.insertionSort (fun a b => key a ≤ key b) with - | ⟨leader, rest⟩
  · intro hi hs hs0
    exact absurd hs0 (by simp)
  · intro hi hs hs0
    simp only [List.get_eq_getElem, List.getElem_map, List.getElem_enum]
    rfl

end F1

namespace F1

/-! ## Claim theorems -/

/-- **C9**: `normalize_lap_time` accepts a `total_laps` argument but never
uses it — for any two values of that argument (and any other inputs held
fixed) the result is identical, so the race fuel estimate depends only on
`lap_number`. -/
theorem c9_total_laps_unused (raw : Option ℚ) (c : Option String) (a : Option ℤ)
    (st : String) (ln tl1 tl2 : ℕ) :
    normalize_lap_time raw c a st ln tl1 = normalize_lap_time raw c a st ln tl2 := by
  cases raw <;> rfl

/-- **C1**: for every defined raw time the normalizer subtracts the compound
adjustment `delta(compound) - delta(MEDIUM)` from the running time, where
`delta` is the configured table (SOFT −1.0, MEDIUM −0.5, HARD 0.0,
INTERMEDIATE 0.0, WET 0.0), and a compound absent from the table (and the
missing compound `None`) gets delta 0 — the HARD baseline point, not
MEDIUM. -/
theorem c1_compound_adjustment :
    (∀ (raw : ℚ) (c : Option String) (a : Option ℤ) (st : String) (ln tl : ℕ),
      normalize_lap_time (some raw) c a st ln tl =
        some (raw - (compound_delta_of c - compound_delta_of (some "MEDIUM"))
          - degradation_of a - fuel_adjustment_of st ln)) ∧
    compound_delta_of (some "SOFT") = -1 ∧
    compound_delta_of (some "MEDIUM") = -(1/2) ∧
    compound_delta_of (some "HARD") = 0 ∧
    compound_delta_of (some "INTERMEDIATE") = 0 ∧
    compound_delta_of (some "WET") = 0 ∧
    compound_delta_of none = 0 ∧
    (∀ c : String, (∀ p ∈ TIRE_COMPOUND_DELTAS, p.1 ≠ c) →
      compound_delta_of (some c) = 0 ∧
      compound_delta_of (some c) = compound_delta_of (some "HARD") ∧
      compound_delta_of (some c) ≠ compound_delta_of (some "MEDIUM")) := by
  refine ⟨normalize_lap_time_some, ?_, compound_delta_of_medium, ?_, ?_, ?_, rfl, ?_⟩
  · simp [compound_delta_of, dictGet, TIRE_COMPOUND_DELTAS, List.find?]
  · simp [compound_delta_of, dictGet, TIRE_COMPOUND_DELTAS, List.find?]
  · simp [compound_delta_of, dictGet, TIRE_COMPOUND_DELTAS, List.find?]
  · simp [compound_delta_of, dictGet, TIRE_COMPOUND_DELTAS, List.find?]
  · intro c hc
    have hnone : TIRE_COMPOUND_DELTAS.find? (fun p => p.1 == c) = none := by
      rw [List.find?_eq_none]
      intro p hp
      simpa using hc p hp
    have h0 : compound_delta_of (some c) = 0 := by
      simp [compound_delta_of, dictGet, hnone]
    refine ⟨h0, ?_, ?_⟩
    · rw [h0]; simp [compound_delta_of, dictGet, TIRE_COMPOUND_DELTAS, List.find?]
    · rw [h0, compound_delta_of_medium]; norm_num

/-- Witness for C1's unknown-compound hypothesis at the concrete compound
`"TESTCOMPOUND"`. -/
theorem c1_compound_adjustment_witness :
    compound_delta_of (some "TESTCOMPOUND") = 0 ∧
    compound_delta_of (some "TESTCOMPOUND") ≠ compound_delta_of (some "MEDIUM") := by
  have h := c1_compound_adjustment.2.2.2.2.2.2.2 "TESTCOMPOUND" (by decide)
  exact ⟨h.1, h.2.2⟩

/-- **C2 (amended)**: for a Race-session lap with fixed raw time, compound
and tire age, *provided the race distance fits in the tank*
(`total_laps * consumption_per_lap ≤ start_fuel`, i.e. the `max(0, ...)`
clamp is inactive), the normalized times at `lap_number = 1` and
`lap_number = total_laps` differ by exactly
`(consumption_per_lap * (total_laps - 1)) * effect_per_kg`, the earlier
(heavier-fuel) lap getting the lower normalized time. -/
theorem c2_race_fuel_lap_difference (raw : ℚ) (c : Option String) (a : Option ℤ)
    (L tl tl' : ℕ) (hL : 1 ≤ L)
    (hfit : (L : ℚ) * FUEL_CONSUMPTION_PER_LAP ≤ RACE_START_FUEL_LOAD_KG) :
    ∃ t1 tL, normalize_lap_time (some raw) c a "Race" 1 tl = some t1 ∧
      normalize_lap_time (some raw) c a "Race" L tl' = some tL ∧
      tL - t1 = (FUEL_CONSUMPTION_PER_LAP * ((L : ℚ) - 1)) * FUEL_EFFECT_PER_KG ∧
      t1 ≤ tL := by
  have hcast : (1 : ℚ) ≤ (L : ℚ) := by exact_mod_cast hL
  have hcons : (0 : ℚ) < FUEL_CONSUMPTION_PER_LAP := by norm_num [FUEL_CONSUMPTION_PER_LAP]
  have heff : (0 : ℚ) < FUEL_EFFECT_PER_KG := by norm_num [FUEL_EFFECT_PER_KG]
  have h1 : (1 : ℚ) * FUEL_CONSUMPTION_PER_LAP ≤ RACE_START_FUEL_LOAD_KG :=
    le_trans (by nlinarith) hfit
  have hmax1 : max 0 (RACE_START_FUEL_LOAD_KG - ((1 : ℕ) : ℚ) * FUEL_CONSUMPTION_PER_LAP)
      = RACE_START_FUEL_LOAD_KG - ((1 : ℕ) : ℚ) * FUEL_CONSUMPTION_PER_LAP := by
    rw [max_eq_right]
    push_cast
    linarith
  have hmaxL : max 0 (RACE_START_FUEL_LOAD_KG - (L : ℚ) * FUEL_CONSUMPTION_PER_LAP)
      = RACE_START_FUEL_LOAD_KG - (L : ℚ) * FUEL_CONSUMPTION_PER_LAP := by
    rw [max_eq_right]
    linarith
  refine ⟨_, _, normalize_lap_time_some raw c a "Race" 1 tl,
    normalize_lap_time_some raw c a "Race" L tl', ?_, ?_⟩
  · simp only [fuel_adjustment_of, if_pos rfl, hmax1, hmaxL]
    push_cast
    ring
  · simp only [fuel_adjustment_of, if_pos rfl, hmax1, hmaxL]
    push_cast
    nlinarith [mul_nonneg (le_of_lt hcons) (le_of_lt heff)]

/-- Witness for C2 (amended) at a 58-lap race. -/
theorem c2_race_fuel_lap_difference_witness :
    ∃ t1 tL, normalize_lap_time (some 90) (some "SOFT") (some 3) "Race" 1 58 = some t1 ∧
      normalize_lap_time (some 90) (some "SOFT") (some 3) "Race" 58 58 = some tL ∧
      tL - t1 = (FUEL_CONSUMPTION_PER_LAP * ((58 : ℚ) - 1)) * FUEL_EFFECT_PER_KG ∧
      t1 ≤ tL :=
  c2_race_fuel_lap_difference 90 (some "SOFT") (some 3) 58 58 58 (by norm_num)
    (by norm_num [FUEL_CONSUMPTION_PER_LAP, RACE_START_FUEL_LOAD_KG])

/-- **C2 is false as stated**: at a 62-lap race distance the burned-fuel
estimate for the last lap exceeds the 110 kg tank, the `max(0, ...)` clamp
engages, and the lap-1 vs lap-62 normalized difference (3.5706 s) is not
`(consumption_per_lap * 61) * effect_per_kg` (3.6234 s). -/
theorem c2_race_fuel_lap_difference_counterexample :
    normalize_lap_time (some 90) (some "MEDIUM") (some 0) "Race" 1 62
      = some (440397/5000) ∧
    normalize_lap_time (some 90) (some "MEDIUM") (some 0) "Race" 62 62
      = some (1833/20) ∧
    (1833/20 : ℚ) - 440397/5000 ≠ (FUEL_CONSUMPTION_PER_LAP * ((62 : ℚ) - 1)) * FUEL_EFFECT_PER_KG := by
  refine ⟨?_, ?_, by norm_num [FUEL_CONSUMPTION_PER_LAP, FUEL_EFFECT_PER_KG]⟩ <;>
  · rw [normalize_lap_time_some]
    simp only [fuel_adjustment_of, degradation_of, compound_delta_of_medium, if_pos rfl]
    norm_num [RACE_START_FUEL_LOAD_KG, FUEL_CONSUMPTION_PER_LAP, FUEL_EFFECT_PER_KG]

/-- **C7**: with raw time, compound, session type, lap number and total
laps fixed, the normalized time is strictly decreasing in a known
non-negative tire age. -/
theorem c7_tire_age_strict_mono (raw : ℚ) (c : Option String) (st : String)
    (ln tl : ℕ) (a1 a2 : ℤ) (h0 : 0 ≤ a1) (h12 : a1 < a2) (t1 t2 : ℚ)
    (e1 : normalize_lap_time (some raw) c (some a1) st ln tl = some t1)
    (e2 : normalize_lap_time (some raw) c (some a2) st ln tl = some t2) :
    t2 < t1 := by
  have hd : ∀ a : ℤ, 0 ≤ a → degradation_of (some a) = (a : ℚ) * TIRE_DEGRADATION_PER_LAP := by
    intro a ha
    by_cases hpos : a > 0
    · simp [degradation_of, hpos]
    · have : a = 0 := by omega
      simp [degradation_of, this]
  rw [normalize_lap_time_some, Option.some.injEq] at e1 e2
  rw [hd a1 h0] at e1
  rw [hd a2 (le_of_lt (lt_of_le_of_lt h0 h12))] at e2
  have hc : (a1 : ℚ) < (a2 : ℚ) := by exact_mod_cast h12
  have hrate : (0 : ℚ) < TIRE_DEGRADATION_PER_LAP := by norm_num [TIRE_DEGRADATION_PER_LAP]
  subst e1
  subst e2
  nlinarith

/-- The name and pace score recorded by `driver_score_of` come from the
driver's grouped laps: the name is the group key and the pace score is the
weighted mean over the pooled best-slice `(time, weight)` pairs. -/
theorem driver_score_of_spec {dname : String} {laps : List (RankLap × ℚ)} {s : DriverScore}
    (h : driver_score_of dname laps = some s) :
    s.driver_name = dname ∧
    s.pace_score = ((driver_weighted_times laps).map (fun p => p.1 * p.2)).sum /
      ((driver_weighted_times laps).map (fun p => p.2)).sum := by
  unfold driver_score_of at h
  rcases laps with - | ⟨l0, rest⟩
  · exact absurd h (by simp)
  · rcases hw : driver_weighted_times (l0 :: rest) with - | ⟨w0, wrest⟩
    · rw [hw] at h
      exact absurd h (by simp)
    · rw [hw] at h
      simp only [Option.some.injEq] at h
      subst h
      exact ⟨rfl, rfl⟩

/-- **C3**: in the driver aggregator, the laps contributing to a driver's
score are, for each session type, the first `max(3, min(20, count // 10))`
entries of that session type's normalized times sorted ascending (each
tagged with the session weight); a group with fewer than 3 laps contributes
all of its laps. -/
theorem c3_best_slice :
    (∀ laps : List (RankLap × ℚ), driver_weighted_times laps =
      (session_time_groups laps).flatMap (fun g =>
        (best_slice g.2).map (fun t => (t, session_weight g.1)))) ∧
    (∀ (all_laps : List RankLap) (stot : ℕ → ℕ) (s : DriverScore),
      s ∈ calculate_driver_pace_scores all_laps stot →
      ∃ dlaps, (s.driver_name, dlaps) ∈ driver_laps_of all_laps stot ∧
        driver_score_of s.driver_name dlaps = some s ∧
        s.pace_score = ((driver_weighted_times dlaps).map (fun p => p.1 * p.2)).sum /
          ((driver_weighted_times dlaps).map (fun p => p.2)).sum) ∧
    (∀ times : List ℚ,
      best_slice times
          = (times.insertionSort (· ≤ ·)).take (max 3 (min 20 (times.length / 10))) ∧
      List.Sorted (· ≤ ·) (best_slice times) ∧
      List.Perm (times.insertionSort (· ≤ ·)) times ∧
      (best_slice times).length = min (max 3 (min 20 (times.length / 10))) times.length ∧
      (∀ x ∈ best_slice times,
        ∀ y ∈ (times.insertionSort (· ≤ ·)).drop (max 3 (min 20 (times.length / 10))),
        x ≤ y) ∧
      (times.length < 3 → List.Perm (best_slice times) times)) := by
  refine ⟨fun laps => rfl, ?_, ?_⟩
  · intro all_laps stot s hs
    obtain ⟨g, hg, hsome⟩ := List.mem_filterMap.mp hs
    obtain ⟨hname, hpace⟩ := driver_score_of_spec hsome
    exact ⟨g.2, by rwa [hname], by rwa [hname], hpace⟩
  · intro times
    have hsorted : List.Sorted (· ≤ ·) (times.insertionSort (· ≤ ·)) :=
      List.sorted_insertionSort (· ≤ ·) times
    refine ⟨rfl, ?_, List.perm_insertionSort (· ≤ ·) times, ?_, ?_, ?_⟩
    · exact hsorted.sublist (List.take_sublist _ _)
    · simp [best_slice]
    · intro x hx y hy
      exact hsorted.rel_of_mem_take_of_mem_drop hx hy
    · intro hlt
      have hlen : (times.insertionSort (· ≤ ·)).length ≤ max 3 (min 20 (times.length / 10)) := by
        rw [List.length_insertionSort]
        exact le_trans (le_of_lt hlt) (le_max_left _ _)
      have : best_slice times = times.insertionSort (· ≤ ·) := by
        simp [best_slice, List.take_of_length_le hlen]
      rw [this]
      exact List.perm_insertionSort (· ≤ ·) times

/-- Witness for C3: a two-lap session-type group contributes both its
laps. -/
theorem c3_best_slice_witness :
    ([95, 89] : List ℚ).length < 3 ∧ List.Perm (best_slice [95, 89]) ([95, 89] : List ℚ) :=
  ⟨by norm_num, (c3_best_slice.2.2 [95, 89]).2.2.2.2.2 (by norm_num)⟩

theorem min_by_pace_mem : ∀ (ds : List DriverScore) (best : DriverScore),
    min_by_pace best ds ∈ best :: ds := by
  intro ds
  induction ds with
  | nil => intro best; simp [min_by_pace]
  | cons d rest ih =>
    intro best
    by_cases h : d.pace_score < best.pace_score
    · simp only [min_by_pace, if_pos h]
      exact List.mem_cons_of_mem _ (ih d)
    · simp only [min_by_pace, if_neg h]
      rcases List.mem_cons.mp (ih best) with h1 | h2
      · simp [h1]
      · exact List.mem_cons_of_mem _ (List.mem_cons_of_mem _ h2)

theorem min_by_pace_le : ∀ (ds : List DriverScore) (best : DriverScore),
    ∀ d ∈ best :: ds, (min_by_pace best ds).pace_score ≤ d.pace_score := by
  intro ds
  induction ds with
  | nil =>
    intro best d hd
    rcases List.mem_cons.mp hd with rfl | h
    · exact le_refl _
    · simp at h
  | cons c rest ih =>
    intro best d hd
    rcases List.mem_cons.mp hd with rfl | hd'
    · by_cases h : c.pace_score < d.pace_score
      · simp only [min_by_pace, if_pos h]
        exact le_trans (ih c c (List.mem_cons_self c rest)) (le_of_lt h)
      · simp only [min_by_pace, if_neg h]
        exact ih d d (List.mem_cons_self d rest)
    · rcases List.mem_cons.mp hd' with rfl | hd''
      · by_cases h : d.pace_score < best.pace_score
        · simp only [min_by_pace, if_pos h]
          exact ih d d (List.mem_cons_self d rest)
        · simp only [min_by_pace, if_neg h]
          exact le_trans (ih best best (List.mem_cons_self best rest)) (le_of_not_lt h)
      · by_cases h : c.pace_score < best.pace_score
        · simp only [min_by_pace, if_pos h]
          exact ih c d (List.mem_cons_of_mem _ hd'')
        · simp only [min_by_pace, if_neg h]
          exact ih best d (List.mem_cons_of_mem _ hd'')

theorem foldl_max_mem : ∀ (xs : List ℚ) (x : ℚ), xs.foldl max x ∈ x :: xs := by
  intro xs
  induction xs with
  | nil => intro x; simp
  | cons y ys ih =>
    intro x
    simp only [List.foldl_cons]
    rcases max_choice x y with hxy | hxy <;> rw [hxy]
    · rcases List.mem_cons.mp (ih x) with h | h
      · simp [h]
      · exact List.mem_cons_of_mem _ (List.mem_cons_of_mem _ h)
    · rcases List.mem_cons.mp (ih y) with h | h
      · simp [h]
      · exact List.mem_cons_of_mem _ (List.mem_cons_of_mem _ h)

theorem le_foldl_max : ∀ (xs : List ℚ) (x : ℚ), ∀ z ∈ x :: xs, z ≤ xs.foldl max x := by
  intro xs
  induction xs with
  | nil =>
    intro x z hz
    rcases List.mem_cons.mp hz with rfl | h
    · exact le_refl _
    · simp at h
  | cons y ys ih =>
    intro x z hz
    simp only [List.foldl_cons]
    rcases List.mem_cons.mp hz with rfl | hz'
    · exact le_trans (le_max_left z y) (ih (max z y) _ (List.mem_cons_self _ _))
    · rcases List.mem_cons.mp hz' with rfl | hz''
      · exact le_trans (le_max_right x z) (ih (max x z) _ (List.mem_cons_self _ _))
      · exact ih (max x y) z (List.mem_cons_of_mem _ hz'')

/-- **C4**: every team score produced by the team aggregator comes from a
non-empty member group, and over that group its `pace_score` is exactly the
minimum member pace score, `driver_gap` the maximum member pace score minus
that minimum, `team_average` the arithmetic mean of the member pace scores,
and `total_laps` the sum of the member lap counts. -/
theorem c4_team_aggregation (ds : List DriverScore) (t : TeamScore)
    (ht : t ∈ calculate_team_pace_scores ds) :
    ∃ ms, ms ≠ [] ∧ (t.team_name, ms) ∈ team_drivers_of ds ∧
      (∀ d ∈ ms, t.pace_score ≤ d.pace_score) ∧
      (∃ d ∈ ms, d.pace_score = t.pace_score) ∧
      (∃ d ∈ ms, (∀ d2 ∈ ms, d2.pace_score ≤ d.pace_score) ∧
        t.driver_gap = d.pace_score - t.pace_score) ∧
      t.team_average = (ms.map (fun d => d.pace_score)).sum / ms.length ∧
      t.total_laps = (ms.map (fun d => d.total_laps)).sum := by
  obtain ⟨g, hg, hsome⟩ := List.mem_filterMap.mp ht
  obtain ⟨tname, ms⟩ := g
  unfold team_score_of at hsome
  rcases ms with - | ⟨d0, rest⟩
  · exact absurd hsome (by simp)
  · simp only [Option.some.injEq] at hsome
    subst hsome
    refine ⟨d0 :: rest, by simp, hg, ?_, ?_, ?_, ?_, rfl⟩
    · exact min_by_pace_le rest d0
    · exact ⟨min_by_pace d0 rest, min_by_pace_mem rest d0, rfl⟩
    · have hmem : (rest.map (fun d => d.pace_score)).foldl max d0.pace_score
          ∈ (d0 :: rest).map (fun d => d.pace_score) := by
        simpa using foldl_max_mem (rest.map (fun d => d.pace_score)) d0.pace_score
      obtain ⟨d, hd, hdv⟩ := List.mem_map.mp hmem
      refine ⟨d, hd, ?_, ?_⟩
      · intro d2 hd2
        rw [hdv]
        apply le_foldl_max
        simpa using List.mem_map_of_mem (fun d => d.pace_score) hd2
      · show list_max ((d0 :: rest).map (fun d => d.pace_score))
            - (min_by_pace d0 rest).pace_score = _
        rw [show list_max ((d0 :: rest).map (fun d => d.pace_score))
            = (rest.map (fun d => d.pace_score)).foldl max d0.pace_score by
          simp [list_max], hdv]
    · show list_mean ((d0 :: rest).map (fun d => d.pace_score)) = _
      rw [list_mean]
      congr 1
      simp

/-- Witness for C4: a two-driver team. -/
theorem c4_team_aggregation_witness :
    ∃ ms, ms ≠ [] ∧
      (({ team_name := "Alpha", team_color := "#111111", pace_score := 80,
          team_average := 81, driver_gap := 2, drivers := ["A", "B"],
          total_laps := 22 } : TeamScore).team_name, ms) ∈ team_drivers_of
        [{ driver_name := "A", team_name := some "Alpha", team_color := "#111111",
           name_acronym := "AAA", pace_score := 80, consistency_sq := 0,
           total_laps := 10, session_details := [], best_normalized_lap := 79 },
         { driver_name := "B", team_name := some "Alpha", team_color := "#111111",
           name_acronym := "BBB", pace_score := 82, consistency_sq := 0,
           total_laps := 12, session_details := [], best_normalized_lap := 81 }] ∧
      (∀ d ∈ ms, (80 : ℚ) ≤ d.pace_score) ∧
      (∃ d ∈ ms, d.pace_score = (80 : ℚ)) ∧
      (∃ d ∈ ms, (∀ d2 ∈ ms, d2.pace_score ≤ d.pace_score) ∧
        (2 : ℚ) = d.pace_score - 80) ∧
      (81 : ℚ) = (ms.map (fun d => d.pace_score)).sum / ms.length ∧
      (22 : ℕ) = (ms.map (fun d => d.total_laps)).sum := by
  have h := c4_team_aggregation
    [{ driver_name := "A", team_name := some "Alpha", team_color := "#111111",
       name_acronym := "AAA", pace_score := 80, consistency_sq := 0,
       total_laps := 10, session_details := [], best_normalized_lap := 79 },
     { driver_name := "B", team_name := some "Alpha", team_color := "#111111",
       name_acronym := "BBB", pace_score := 82, consistency_sq := 0,
       total_laps := 12, session_details := [], best_normalized_lap := 81 }]
    { team_name := "Alpha", team_color := "#111111", pace_score := 80,
      team_average := 81, driver_gap := 2, drivers := ["A", "B"], total_laps := 22 }
    (by
      simp [calculate_team_pace_scores, team_drivers_of, group_by, group_fuel,
        team_score_of, min_by_pace, py_truthy_str, list_mean, list_max]
      norm_num)
  exact h

/-- **C8**: for a session identifier matching no stored session,
`get_session_pecking_order` returns `none` (the embedding is total, so no
exception can be raised). -/
theorem c8_unknown_session (store : List Session) (key : ℕ)
    (h : ∀ s ∈ store, s.session_key ≠ key) :
    get_session_pecking_order store key = none := by
  unfold get_session_pecking_order
  rw [List.find?_eq_none.mpr]
  · rfl
  · intro s hs
    simpa using h s hs

/-- Witness for C8 at the spec's own example id 999999. -/
theorem c8_unknown_session_witness :
    get_session_pecking_order
      [{ session_key := 101, session_name := "Race", session_type := "Race", laps := [] }]
      999999 = none :=
  c8_unknown_session _ _ (by decide)

/-- What the Ranking Builder guarantees about an output list `out` built
from a source list `src`: stable ascending order by `key` (the filter
condition, for every key value, pins down both the multiset and the
relative order of ties), 1-based positions, and gap-to-leader = own key
minus the leader's key, zero for the leader and never negative. -/
def ranked_output_spec {α : Type} (key : α → ℚ) (src : List α)
    (out : List (Ranked α)) : Prop :=
  out.Pairwise (fun a b => key a.entry ≤ key b.entry) ∧
  (∀ q : ℚ, (out.map (fun re => re.entry)).filter (fun a => decide (key a = q))
      = src.filter (fun a => decide (key a = q))) ∧
  ∀ i, ∀ hi : i < out.length,
    (out.get ⟨i, hi⟩).position = i + 1 ∧
    ∃ h0 : 0 < out.length,
      (out.get ⟨i, hi⟩).gap_to_leader
        = key (out.get ⟨i, hi⟩).entry - key ((out.get ⟨0, h0⟩).entry) ∧
      (i = 0 → (out.get ⟨i, hi⟩).gap_to_leader = 0) ∧
      0 ≤ (out.get ⟨i, hi⟩).gap_to_leader

theorem rank_by_ranked_output_spec {α : Type} (key : α → ℚ) (l : List α) :
    ranked_output_spec key l (rank_by key l) := by
  haveI htot : IsTotal α (fun a b => key a ≤ key b) := ⟨fun a b => le_total _ _⟩
  haveI htr : IsTrans α (fun a b => key a ≤ key b) := ⟨fun a b c h1 h2 => le_trans h1 h2⟩
  haveI hrefl : IsRefl α (fun a b => key a ≤ key b) := ⟨fun a => le_refl _⟩
  have hsorted : List.Sorted (fun a b => key a ≤ key b)
      (l.insertionSort (fun a b => key a ≤ key b)) :=
    List.sorted_insertionSort _ l
  refine ⟨?_, ?_, ?_⟩
  · have hs := hsorted
    rw [← rank_by_entries key l] at hs
    exact List.Pairwise.of_map (fun re => re.entry) (fun a b hab => hab) hs
  · intro q
    rw [rank_by_entries]
    exact insertionSort_filter_stable key l q
  · intro i hi
    have h0 : 0 < (rank_by key l).length := lt_of_le_of_lt (Nat.zero_le i) hi
    obtain ⟨hsi, hsi0, heqi⟩ := rank_by_get key l i hi
    obtain ⟨hs0, hs00, heq0⟩ := rank_by_get key l 0 h0
    refine ⟨by rw [heqi], h0, ?_, ?_, ?_⟩
    · rw [heqi, heq0]
    · intro hi0
      subst hi0
      rw [heqi]
      simp
    · rw [heqi]
      have hle : key ((l.insertionSort (fun a b => key a ≤ key b)).get ⟨0, hsi0⟩)
          ≤ key ((l.insertionSort (fun a b => key a ≤ key b)).get ⟨i, hsi⟩) :=
        hsorted.rel_get_of_le (by simp [Fin.le_def])
      simpa using hle

/-- **C5**: both ranked lists produced by `calculate_rankings` are in
stable ascending `pace_score` order relative to their source score lists
(per-key filters coincide, which fixes both the multiset and the order of
ties), positions are the 1-based indices, the first entry's gap_to_leader
is 0, and every gap_to_leader equals own score minus the leader's and is
non-negative. -/
theorem c5_calculate_rankings (all_laps : List RankLap) (stot : ℕ → ℕ) :
    ranked_output_spec (fun d => d.pace_score)
      (calculate_driver_pace_scores all_laps stot)
      (calculate_rankings all_laps stot).1 ∧
    ranked_output_spec (fun t => t.pace_score)
      (calculate_team_pace_scores (calculate_driver_pace_scores all_laps stot))
      (calculate_rankings all_laps stot).2 := by
  rcases h : calculate_driver_pace_scores all_laps stot with - | ⟨s0, srest⟩
  · have h1 : calculate_rankings all_laps stot = ([], []) := by
      simp [calculate_rankings, h]
    rw [h1]
    have hteam : calculate_team_pace_scores [] = [] := rfl
    exact ⟨⟨by simp, by simp [h], fun i hi => absurd hi (by simp)⟩,
           ⟨by simp, by simp [hteam], fun i hi => absurd hi (by simp)⟩⟩
  · have h1 : calculate_rankings all_laps stot =
        (rank_by (fun d => d.pace_score) (s0 :: srest),
         rank_by (fun t => t.pace_score) (calculate_team_pace_scores (s0 :: srest))) := by
      simp [calculate_rankings, h]
    rw [h1]
    exact ⟨rank_by_ranked_output_spec _ _, rank_by_ranked_output_spec _ _⟩

/-- The concrete one-lap store used by the C5 witness. -/
def c5_witness_laps : List RankLap :=
  [{ session_key := 1, driver_number := 1, lap_number := 1, lap_duration := some 90,
     compound := some "MEDIUM", tire_age := none, session_type := "Practice 1",
     meeting_key := 1, driver_name := "A", team_name := some "T",
     team_color := some "#123456", name_acronym := "AAA" }]

theorem c5_witness_len1 : (calculate_rankings c5_witness_laps (fun _ => 58)).1.length = 1 := by
  simp [c5_witness_laps, calculate_rankings, calculate_driver_pace_scores, driver_laps_of,
    normalize_rank_lap, normalize_lap_time, compound_delta_of, dictGet, TIRE_COMPOUND_DELTAS,
    group_by, group_fuel, driver_score_of, session_time_groups, driver_weighted_times,
    best_slice, session_weight, SESSION_WEIGHTS, py_or_str, sample_variance, list_mean,
    list_min, List.find?, rank_by, List.enum, List.enumFrom]

theorem c5_witness_len2 : (calculate_rankings c5_witness_laps (fun _ => 58)).2.length = 1 := by
  simp [c5_witness_laps, calculate_rankings, calculate_driver_pace_scores, driver_laps_of,
    normalize_rank_lap, normalize_lap_time, compound_delta_of, dictGet, TIRE_COMPOUND_DELTAS,
    group_by, group_fuel, driver_score_of, session_time_groups, driver_weighted_times,
    best_slice, session_weight, SESSION_WEIGHTS, py_or_str, sample_variance, list_mean,
    list_min, List.find?, rank_by, List.enum, List.enumFrom,
    calculate_team_pace_scores, team_drivers_of, team_score_of, min_by_pace,
    py_truthy_str, list_max]

/-- Witness for C5 on a one-lap store: leader position 1, leader gap 0 (for
both ranked lists), and the stability filter at the concrete key 37. -/
theorem c5_calculate_rankings_witness :
    ((calculate_rankings c5_witness_laps (fun _ => 58)).1.get
        ⟨0, by rw [c5_witness_len1]; norm_num⟩).position = 1 ∧
    ((calculate_rankings c5_witness_laps (fun _ => 58)).1.get
        ⟨0, by rw [c5_witness_len1]; norm_num⟩).gap_to_leader = 0 ∧
    ((calculate_rankings c5_witness_laps (fun _ => 58)).2.get
        ⟨0, by rw [c5_witness_len2]; norm_num⟩).position = 1 ∧
    ((calculate_rankings c5_witness_laps (fun _ => 58)).2.get
        ⟨0, by rw [c5_witness_len2]; norm_num⟩).gap_to_leader = 0 ∧
    ((calculate_rankings c5_witness_laps (fun _ => 58)).1.map (fun re => re.entry)).filter
        (fun d => decide (d.pace_score = 37))
      = (calculate_driver_pace_scores c5_witness_laps (fun _ => 58)).filter
        (fun d => decide (d.pace_score = 37)) := by
  obtain ⟨hpair1, hstab1, hidx1⟩ := (c5_calculate_rankings c5_witness_laps (fun _ => 58)).1
  obtain ⟨hpair2, hstab2, hidx2⟩ := (c5_calculate_rankings c5_witness_laps (fun _ => 58)).2
  obtain ⟨hpos1, h01, hgap1, hzero1, hnn1⟩ := hidx1 0 (by rw [c5_witness_len1]; norm_num)
  obtain ⟨hpos2, h02, hgap2, hzero2, hnn2⟩ := hidx2 0 (by rw [c5_witness_len2]; norm_num)
  exact ⟨hpos1, hzero1 rfl, hpos2, hzero2 rfl, hstab1 37⟩

/-- The best-lap update of one lap preserves "the tracked best lap has a
non-zero normalized time" (the `if normalized and ...` truthiness guard). -/
theorem update_driver_data_best_ne_zero (st : String) (tl : ℕ)
    (d : DriverSessionData) (lap : SessionLap)
    (h : ∀ p t, d.best_lap = some (p, t) → t ≠ 0) :
    ∀ p t, (update_driver_data st tl d lap).best_lap = some (p, t) → t ≠ 0 := by
  intro p t he
  simp only [update_driver_data] at he
  split at he
  · exact h p t he
  · split at he
    · exact h p t he
    · rename_i hz
      split at he
      · injection he with h3
        injection h3 with h4 h5
        intro ht
        exact hz (h5.trans ht)
      · split at he
        · injection he with h3
          injection h3 with h4 h5
          intro ht
          exact hz (h5.trans ht)
        · exact h p t he

theorem foldl_update_best_ne_zero (st : String) (tl : ℕ) :
    ∀ (ls : List SessionLap) (d : DriverSessionData),
      (∀ p t, d.best_lap = some (p, t) → t ≠ 0) →
      ∀ p t, (ls.foldl (update_driver_data st tl) d).best_lap = some (p, t) → t ≠ 0 := by
  intro ls
  induction ls with
  | nil => intro d h; exact h
  | cons l rest ih =>
    intro d h
    exact ih _ (update_driver_data_best_ne_zero st tl d l h)

/-- A lap whose normalized time is undefined or exactly 0 never installs a
best lap. -/
theorem update_driver_data_best_none (st : String) (tl : ℕ)
    (d : DriverSessionData) (lap : SessionLap) (hd : d.best_lap = none)
    (hlap : normalize_lap_time lap.lap_duration lap.compound lap.tire_age st
        lap.lap_number tl = none ∨
      normalize_lap_time lap.lap_duration lap.compound lap.tire_age st
        lap.lap_number tl = some 0) :
    (update_driver_data st tl d lap).best_lap = none := by
  simp only [update_driver_data]
  split
  · exact hd
  · rename_i t0 hteq
    rcases hlap with hn | hn
    · rw [hteq] at hn
      exact absurd hn (by simp)
    · rw [hteq] at hn
      simp only [Option.some.injEq] at hn
      rw [if_pos hn]
      exact hd

theorem foldl_update_best_none (st : String) (tl : ℕ) :
    ∀ (ls : List SessionLap) (d : DriverSessionData), d.best_lap = none →
      (∀ l ∈ ls, normalize_lap_time l.lap_duration l.compound l.tire_age st
          l.lap_number tl = none ∨
        normalize_lap_time l.lap_duration l.compound l.tire_age st
          l.lap_number tl = some 0) →
      (ls.foldl (update_driver_data st tl) d).best_lap = none := by
  intro ls
  induction ls with
  | nil => intro d hd _; exact hd
  | cons l rest ih =>
    intro d hd hall
    exact ih _ (update_driver_data_best_none st tl d l hd
        (hall l (List.mem_cons_self _ _)))
      (fun l2 h2 => hall l2 (List.mem_cons_of_mem _ h2))

/-- A session ranking entry records its group key as the driver name and
the tracked best lap's normalized time. -/
theorem driver_entry_of_spec {dname : String} {d : DriverSessionData}
    {e : SessionDriverEntry} (h : driver_entry_of dname d = some e) :
    e.driver_name = dname ∧ ∃ bp bt, d.best_lap = some (bp, bt) ∧ e.normalized_time = bt := by
  unfold driver_entry_of at h
  rcases hb : d.best_lap with - | ⟨bp, bt⟩
  · rw [hb] at h
    exact absurd h (by simp)
  · rw [hb] at h
    simp only [Option.some.injEq] at h
    subst h
    exact ⟨rfl, bp, bt, rfl, rfl⟩

theorem rank_session_entries_entries (es : List SessionDriverEntry) :
    (rank_session_entries es).map (fun re => re.entry)
      = es.insertionSort (fun a b => entry_sort_key a ≤ entry_sort_key b) := by
  unfold rank_session_entries
  rcases h : es.insertionSort (fun a b => entry_sort_key a ≤ entry_sort_key b)
    with - | ⟨leader, rest⟩
  · simp
  · simp only [List.map_map]
    have hcomp : ((fun re : RankedSessionEntry => re.entry) ∘ fun p : ℕ × SessionDriverEntry =>
        match p with
        | (i, e) =>
          ({ entry := e, position := i + 1,
             gap_to_leader :=
               if e.normalized_time = 0 then none
               else some (e.normalized_time - leader.normalized_time) } :
            RankedSessionEntry)) = Prod.snd := by
      funext p
      rcases p with ⟨i, e⟩
      rfl
    rw [hcomp, List.enum, List.enumFrom_map_snd]

theorem mem_rank_session_entries {es : List SessionDriverEntry}
    {re : RankedSessionEntry} (h : re ∈ rank_session_entries es) : re.entry ∈ es := by
  have hmap : re.entry ∈ (rank_session_entries es).map (fun re => re.entry) :=
    List.mem_map_of_mem _ h
  rw [rank_session_entries_entries] at hmap
  exact (List.mem_insertionSort _).mp hmap

/-- Every ranking entry of a session pecking order arises from one driver
group: its name is the group key, and its normalized time is the group
fold's tracked best normalized time. -/
theorem session_ranking_entry_spec (s : Session) {re : RankedSessionEntry}
    (h : re ∈ (session_pecking_order_of s).driver_rankings) :
    ∃ g ∈ group_by (fun l => l.driver_name) (fun l => l) (session_valid_laps s),
      re.entry.driver_name = g.1 ∧
      ∃ bp bt,
        (g.2.foldl (update_driver_data s.session_type
          (session_total_laps_of (session_valid_laps s))) empty_driver_data).best_lap
            = some (bp, bt) ∧
        re.entry.normalized_time = bt := by
  revert h
  unfold session_pecking_order_of
  rcases hv : session_valid_laps s with - | ⟨l0, rest⟩
  · intro h
    exact absurd h (List.not_mem_nil re)
  · intro h
    have hmem := mem_rank_session_entries h
    obtain ⟨g, hg, hsome⟩ := List.mem_filterMap.mp hmem
    obtain ⟨gg, hgg, hpair⟩ := List.mem_map.mp hg
    obtain ⟨hname, bp, bt, hbest, hnt⟩ := driver_entry_of_spec hsome
    have h1 : g.1 = gg.1 := by rw [← hpair]
    have h2 : g.2 = gg.2.foldl (update_driver_data s.session_type
        (session_total_laps_of (l0 :: rest))) empty_driver_data := by
      rw [← hpair]
    refine ⟨gg, hgg, ?_, bp, bt, ?_, hnt⟩
    · rw [hname, h1]
    · rw [← h2]
      exact hbest

/-- **C10**: a lap whose normalized time is exactly 0.0 is treated like an
undefined one — it never becomes a driver's tracked best lap (every ranked
entry's normalized time is non-zero), a driver all of whose laps normalize
to 0.0 is excluded from the session's driver rankings, and
`get_meeting_breakdown`'s per-meeting pooling drops every lap whose
normalized time is 0.0. -/
theorem c10_zero_normalized :
    (∀ (store : List Session) (key : ℕ) (spo : SessionPeckingOrder),
      get_session_pecking_order store key = some spo →
      ∃ s, store.find? (fun s2 => s2.session_key == key) = some s ∧
        spo = session_pecking_order_of s ∧
        (∀ re ∈ spo.driver_rankings, re.entry.normalized_time ≠ 0) ∧
        (∀ dname : String,
          (∀ lap ∈ session_valid_laps s, lap.driver_name = dname →
            normalize_lap_time lap.lap_duration lap.compound lap.tire_age s.session_type
              lap.lap_number (session_total_laps_of (session_valid_laps s)) = some 0) →
          ∀ re ∈ spo.driver_rankings, re.entry.driver_name ≠ dname)) ∧
    (∀ (laps : List RankLap) (dname : String) (ts : List ℚ),
      (dname, ts) ∈ meeting_driver_times laps → (0 : ℚ) ∉ ts) := by
  constructor
  · intro store key spo hget
    unfold get_session_pecking_order at hget
    rcases hf : store.find? (fun s2 => s2.session_key == key) with - | s
    · rw [hf] at hget
      exact absurd hget (by simp)
    · rw [hf] at hget
      injection hget with hspo
      refine ⟨s, hf, hspo.symm, ?_, ?_⟩
      · intro re hre
        rw [← hspo] at hre
        obtain ⟨g, hg, -, bp, bt, hbest, hnt⟩ := session_ranking_entry_spec s hre
        rw [hnt]
        exact foldl_update_best_ne_zero _ _ g.2 empty_driver_data
          (fun p t ht => absurd ht (by simp [empty_driver_data])) bp bt hbest
      · intro dname hall re hre
        rw [← hspo] at hre
        obtain ⟨g, hg, hname, bp, bt, hbest, -⟩ := session_ranking_entry_spec s hre
        intro hcontra
        have hkey : g.1 = dname := by rw [← hname, hcontra]
        obtain ⟨hvals, -⟩ := group_by_sound _ _ _ _ _ hg
        have hzero : ∀ l ∈ g.2,
            normalize_lap_time l.lap_duration l.compound l.tire_age s.session_type
              l.lap_number (session_total_laps_of (session_valid_laps s)) = none ∨
            normalize_lap_time l.lap_duration l.compound l.tire_age s.session_type
              l.lap_number (session_total_laps_of (session_valid_laps s)) = some 0 := by
          intro l hl
          rw [hvals] at hl
          obtain ⟨l2, hl2, rfl⟩ := List.mem_map.mp hl
          have hl2f := List.mem_filter.mp hl2
          right
          exact hall l2 hl2f.1 (by have := hl2f.2; simp at this; rw [this, hkey])
        have := foldl_update_best_none _ _ g.2 empty_driver_data
          (by simp [empty_driver_data]) hzero
        rw [this] at hbest
        exact absurd hbest (by simp)
  · intro laps dname ts hmem hzero
    obtain ⟨hvals, -⟩ := group_by_sound _ _ _ _ _ hmem
    rw [hvals] at hzero
    obtain ⟨pr, hpr, hpr0⟩ := List.mem_map.mp hzero
    have hprmem := (List.mem_filter.mp hpr).1
    obtain ⟨lap, -, heq⟩ := List.mem_filterMap.mp hprmem
    split at heq
    · exact absurd heq (by simp)
    · split at heq
      · exact absurd heq (by simp)
      · rename_i hz
        injection heq with h3
        exact hz ((congrArg Prod.snd h3).trans hpr0)

/-- The concrete session used by the C10 witness: driver Z's only lap
normalizes to exactly 0.0, driver B's lap to 90.0. -/
def c10_witness_session : Session :=
  { session_key := 7, session_name := "Practice 1", session_type := "Practice 1",
    laps :=
      [{ driver_number := 2, lap_number := 1, lap_duration := some 0,
         sector_1_duration := none, sector_2_duration := none, sector_3_duration := none,
         speed_trap := none, compound := some "MEDIUM", tire_age := none,
         is_valid_for_ranking := true, driver_name := "Z", team_name := none,
         team_color := none, name_acronym := "ZZZ" },
       { driver_number := 1, lap_number := 1, lap_duration := some 90,
         sector_1_duration := none, sector_2_duration := none, sector_3_duration := none,
         speed_trap := none, compound := some "MEDIUM", tire_age := none,
         is_valid_for_ranking := true, driver_name := "B", team_name := none,
         team_color := none, name_acronym := "BBB" }] }

theorem c10_witness_rankings :
    (session_pecking_order_of c10_witness_session).driver_rankings ≠ [] := by
  simp [c10_witness_session, session_pecking_order_of, session_valid_laps,
    session_total_laps_of, driver_data_of, group_by, group_fuel, update_driver_data,
    empty_driver_data, update_best_sector, add_compound, driver_entry_of, py_or_str,
    rank_session_entries, entry_sort_key, normalize_lap_time, compound_delta_of,
    dictGet, TIRE_COMPOUND_DELTAS, List.find?, List.enum, List.enumFrom]

/-- The concrete fetched-lap list used by the C10 witness for the meeting
breakdown pooling. -/
def c10_witness_rank_laps : List RankLap :=
  [{ session_key := 1, driver_number := 1, lap_number := 1, lap_duration := some 90,
     compound := some "MEDIUM", tire_age := none, session_type := "Practice 1",
     meeting_key := 1, driver_name := "B", team_name := some "T",
     team_color := some "#123456", name_acronym := "BBB" }]

/-- Witness for C10: in the mixed session, the ranked leader's normalized
time is non-zero and the all-zero driver Z is not the leader; the pooled
meeting times for driver B do not contain 0. -/
theorem c10_zero_normalized_witness :
    ((session_pecking_order_of c10_witness_session).driver_rankings.head
        c10_witness_rankings).entry.normalized_time ≠ 0 ∧
    ((session_pecking_order_of c10_witness_session).driver_rankings.head
        c10_witness_rankings).entry.driver_name ≠ "Z" ∧
    (0 : ℚ) ∉ [(90 : ℚ)] := by
  obtain ⟨s', hfind, hspo, ha, hb⟩ := c10_zero_normalized.1 [c10_witness_session] 7
    (session_pecking_order_of c10_witness_session) rfl
  have hs' : s' = c10_witness_session := by
    have h2 : (some c10_witness_session : Option Session) = some s' := by
      rw [← hfind]
      rfl
    injection h2 with h3
    exact h3.symm
  subst hs'
  refine ⟨ha _ (List.head_mem _), ?_, ?_⟩
  · refine hb "Z" ?_ _ (List.head_mem _)
    intro lap hlap hname
    have hlap2 : lap ∈ c10_witness_session.laps := List.mem_of_mem_filter hlap
    simp only [c10_witness_session, List.mem_cons, List.mem_singleton] at hlap2
    rcases hlap2 with rfl | rfl | h
    · simp [normalize_lap_time, compound_delta_of, dictGet, TIRE_COMPOUND_DELTAS,
        List.find?, c10_witness_session]
    · exact absurd hname (by simp)
    · exact absurd h (List.not_mem_nil _)
  · have hmt : meeting_driver_times c10_witness_rank_laps = [("B", [90])] := by
      simp [meeting_driver_times, c10_witness_rank_laps, group_by, group_fuel,
        normalize_lap_time, compound_delta_of, dictGet, TIRE_COMPOUND_DELTAS,
        List.find?]
    exact c10_zero_normalized.2 c10_witness_rank_laps "B" [90]
      (by rw [hmt]; exact List.mem_cons_self _ _)

theorem filter_flatMap {α β : Type} (l : List α) (F : α → List β) (p : β → Bool) :
    (l.flatMap F).filter p = l.flatMap (fun a => (F a).filter p) := by
  induction l with
  | nil => rfl
  | cons a rest ih => simp only [List.flatMap_cons, List.filter_append, ih]

theorem map_flatMap2 {α β γ : Type} (l : List α) (F : α → List β) (f : β → γ) :
    (l.flatMap F).map f = l.flatMap (fun a => (F a).map f) := by
  induction l with
  | nil => rfl
  | cons a rest ih => simp only [List.flatMap_cons, List.map_append, ih]

theorem length_filter_le_one_of_pairwise_ne {α K : Type} [DecidableEq K] (key : α → K) :
    ∀ l : List α, l.Pairwise (fun a b => key a ≠ key b) → ∀ k : K,
      (l.filter (fun a => decide (key a = k))).length ≤ 1 := by
  intro l
  induction l with
  | nil => intro _ k; simp
  | cons a rest ih =>
    intro hp k
    rcases List.pairwise_cons.mp hp with ⟨hhead, htail⟩
    rw [List.filter_cons]
    by_cases hk : key a = k
    · rw [if_pos (by simpa using hk)]
      have hrest : rest.filter (fun b => decide (key b = k)) = [] := by
        rw [List.filter_eq_nil_iff]
        intro b hb
        simp only [decide_eq_true_eq]
        intro hbk
        exact hhead b hb (hk.trans hbk.symm)
      simp [hrest]
    · rw [if_neg (by simpa using hk)]
      exact ih htail k

theorem session_weight_pos (st : String) : 0 < session_weight st := by
  unfold session_weight dictGet
  rcases h : SESSION_WEIGHTS.find? (fun p => p.1 == st) with - | p
  · rw [h]
    norm_num
  · rw [h]
    show 0 < p.2
    have hmem := List.mem_of_find?_eq_some h
    simp only [SESSION_WEIGHTS, List.mem_cons, List.not_mem_nil, or_false] at hmem
    rcases hmem with rfl | rfl | rfl | rfl | rfl | rfl | rfl <;> norm_num

/-- The ranking entries of a session pecking order carry pairwise-distinct
driver names (one entry per driver). -/
theorem session_rankings_filter_le_one (s : Session) (dname : String) :
    ((session_pecking_order_of s).driver_rankings.filter
      (fun re => decide (re.entry.driver_name = dname))).length ≤ 1 := by
  unfold session_pecking_order_of
  rcases hv : session_valid_laps s with - | ⟨l0, rest⟩
  · simp
  · show ((rank_session_entries
        ((driver_data_of s.session_type (session_total_laps_of (l0 :: rest))
          (l0 :: rest)).filterMap (fun g => driver_entry_of g.1 g.2))).filter
          (fun re => decide (re.entry.driver_name = dname))).length ≤ 1
    have hdd : (driver_data_of s.session_type (session_total_laps_of (l0 :: rest))
        (l0 :: rest)).Pairwise (fun a b => a.1 ≠ b.1) := by
      unfold driver_data_of
      exact (group_by_keys_nodup _ _ _).map _ (fun a b hab => hab)
    have hent : ((driver_data_of s.session_type (session_total_laps_of (l0 :: rest))
        (l0 :: rest)).filterMap (fun g => driver_entry_of g.1 g.2)).Pairwise
          (fun a b => a.driver_name ≠ b.driver_name) := by
      rw [List.pairwise_filterMap]
      apply hdd.imp
      intro g g2 hne e he e2 he2
      have h1 := (driver_entry_of_spec he).1
      have h2 := (driver_entry_of_spec he2).1
      rw [h1, h2]
      exact hne
    have hperm : List.Perm
        ((((driver_data_of s.session_type (session_total_laps_of (l0 :: rest))
          (l0 :: rest)).filterMap (fun g => driver_entry_of g.1 g.2)).insertionSort
            (fun a b => entry_sort_key a ≤ entry_sort_key b)).filter
          (fun e => decide (e.driver_name = dname)))
        ((((driver_data_of s.session_type (session_total_laps_of (l0 :: rest))
          (l0 :: rest)).filterMap (fun g => driver_entry_of g.1 g.2))).filter
          (fun e => decide (e.driver_name = dname))) :=
      (List.perm_insertionSort _ _).filter _
    have hlen2 := length_filter_le_one_of_pairwise_ne
      (fun e : SessionDriverEntry => e.driver_name) _ hent dname
    have hkey : ((rank_session_entries
        ((driver_data_of s.session_type (session_total_laps_of (l0 :: rest))
          (l0 :: rest)).filterMap (fun g => driver_entry_of g.1 g.2))).filter
          (fun re => decide (re.entry.driver_name = dname))).length
        = (((rank_session_entries
            ((driver_data_of s.session_type (session_total_laps_of (l0 :: rest))
              (l0 :: rest)).filterMap (fun g => driver_entry_of g.1 g.2))).map
              (fun re => re.entry)).filter
            (fun e => decide (e.driver_name = dname))).length := by
      rw [List.filter_map]
      simp only [List.length_map]
      rfl
    rw [hkey, rank_session_entries_entries]
    rw [hperm.length_eq]
    exact hlen2

/-- **C6**: in the meeting pecking order, each driver's pooled list holds
exactly one value per session — the normalized best lap of that driver's
unique entry in the session's pecking order, tagged with the session type —
the driver's weekend pace is the weighted mean of those values using the
configured session-type weights (0.5 for an unknown type), and drivers are
ranked ascending by that mean with position and gap as in the Ranking
Builder. -/
theorem c6_meeting_pecking_order (mk : ℕ) (sessions : List Session) :
    (∀ (dname : String) (ts : List (ℚ × String)),
      (dname, ts) ∈ all_driver_times sessions →
      (ts = sessions.flatMap (fun s =>
        ((session_pecking_order_of s).driver_rankings.filter
            (fun re => decide (re.entry.driver_name = dname))).map
          (fun re => (re.entry.normalized_time, s.session_type))) ∧
      ∀ s ∈ sessions, ((session_pecking_order_of s).driver_rankings.filter
          (fun re => decide (re.entry.driver_name = dname))).length ≤ 1)) ∧
    (∀ e ∈ overall_entries_of sessions, ∃ ts,
      (e.driver_name, ts) ∈ all_driver_times sessions ∧ ts ≠ [] ∧
      0 < (ts.map (fun t => session_weight t.2)).sum ∧
      e.pace = (ts.map (fun t => t.1 * session_weight t.2)).sum /
        (ts.map (fun t => session_weight t.2)).sum ∧
      e.session_count = ts.length) ∧
    (session_weight "Practice 1" = 1/2 ∧ session_weight "Practice 2" = 7/10 ∧
     session_weight "Practice 3" = 3/5 ∧ session_weight "Sprint Qualifying" = 4/5 ∧
     session_weight "Sprint" = 4/5 ∧ session_weight "Qualifying" = 1 ∧
     session_weight "Race" = 1 ∧
     ∀ st : String, (∀ p ∈ SESSION_WEIGHTS, p.1 ≠ st) → session_weight st = 1/2) ∧
    ranked_output_spec (fun e => e.pace) (overall_entries_of sessions)
      (meeting_pecking_order_of mk sessions).overall_rankings := by
  refine ⟨?_, ?_, ?_, rank_by_ranked_output_spec _ _⟩
  · intro dname ts hmem
    obtain ⟨hvals, -⟩ := group_by_sound _ _ _ _ _ hmem
    refine ⟨?_, fun s _ => session_rankings_filter_le_one s dname⟩
    rw [hvals]
    unfold meeting_pooled
    rw [filter_flatMap, map_flatMap2]
    refine congrArg _ (funext fun s => ?_)
    rcases h : (session_pecking_order_of s).driver_rankings with - | ⟨r0, rrest⟩
    · simp only [h]
      simp
    · simp only [h]
      rw [List.filter_map, List.map_map]
      rfl
  · intro e he
    obtain ⟨g, hg, heq⟩ := List.mem_map.mp he
    obtain ⟨dname, ts⟩ := g
    subst heq
    obtain ⟨hvals, x, hx, hxkey⟩ := group_by_sound _ _ _ _ _ hg
    have hts : ts ≠ [] := by
      rw [hvals]
      have hxf : x ∈ (meeting_pooled sessions).filter
          (fun p => decide (p.1.entry.driver_name = dname)) :=
        List.mem_filter.mpr ⟨hx, by simp [hxkey]⟩
      exact List.ne_nil_of_mem (List.mem_map_of_mem _ hxf)
    have hwpos : 0 < (ts.map (fun t => session_weight t.2)).sum := by
      apply List.sum_pos
      · intro w hw
        obtain ⟨t, -, rfl⟩ := List.mem_map.mp hw
        exact session_weight_pos t.2
      · simpa using hts
    refine ⟨ts, hg, hts, hwpos, ?_, rfl⟩
    have hW : ((ts.map (fun t => (t.1, session_weight t.2))).map (fun p => p.2)).sum
        = (ts.map (fun t => session_weight t.2)).sum := by
      rw [List.map_map]
      rfl
    have hS : ((ts.map (fun t => (t.1, session_weight t.2))).map (fun p => p.1 * p.2)).sum
        = (ts.map (fun t => t.1 * session_weight t.2)).sum := by
      rw [List.map_map]
      rfl
    show (if 0 < ((ts.map (fun t => (t.1, session_weight t.2))).map (fun p => p.2)).sum
        then ((ts.map (fun t => (t.1, session_weight t.2))).map (fun p => p.1 * p.2)).sum /
          ((ts.map (fun t => (t.1, session_weight t.2))).map (fun p => p.2)).sum
        else 0)
      = (ts.map (fun t => t.1 * session_weight t.2)).sum /
        (ts.map (fun t => session_weight t.2)).sum
    rw [hW, hS, if_pos hwpos]
  · refine ⟨?_, ?_, ?_, ?_, ?_, ?_, ?_, ?_⟩
    · simp [session_weight, dictGet, SESSION_WEIGHTS, List.find?]
    · simp [session_weight, dictGet, SESSION_WEIGHTS, List.find?]
    · simp [session_weight, dictGet, SESSION_WEIGHTS, List.find?]
    · simp [session_weight, dictGet, SESSION_WEIGHTS, List.find?]
    · simp [session_weight, dictGet, SESSION_WEIGHTS, List.find?]
    · simp [session_weight, dictGet, SESSION_WEIGHTS, List.find?]
    · simp [session_weight, dictGet, SESSION_WEIGHTS, List.find?]
    · intro st hst
      have hnone : SESSION_WEIGHTS.find? (fun p => p.1 == st) = none := by
        rw [List.find?_eq_none]
        intro p hp
        simpa using hst p hp
      simp [session_weight, dictGet, hnone]

/-- The concrete one-session meeting used by the C6 witness. -/
def c6_witness_session : Session :=
  { session_key := 11, session_name := "Practice 1", session_type := "Practice 1",
    laps :=
      [{ driver_number := 1, lap_number := 1, lap_duration := some 90,
         sector_1_duration := none, sector_2_duration := none, sector_3_duration := none,
         speed_trap := none, compound := some "MEDIUM", tire_age := none,
         is_valid_for_ranking := true, driver_name := "B", team_name := none,
         team_color := none, name_acronym := "BBB" }] }

theorem c6_witness_adt :
    all_driver_times [c6_witness_session] = [("B", [((90 : ℚ), "Practice 1")])] := by
  simp [c6_witness_session, session_pecking_order_of, session_valid_laps,
    session_total_laps_of, driver_data_of, group_by, group_fuel, update_driver_data,
    empty_driver_data, update_best_sector, add_compound, driver_entry_of, py_or_str,
    rank_session_entries, entry_sort_key, normalize_lap_time, compound_delta_of,
    dictGet, TIRE_COMPOUND_DELTAS, List.find?, List.enum, List.enumFrom,
    meeting_pooled, all_driver_times]

theorem c6_witness_ov_ne : overall_entries_of [c6_witness_session] ≠ [] := by
  simp [c6_witness_session, session_pecking_order_of, session_valid_laps,
    session_total_laps_of, driver_data_of, group_by, group_fuel, update_driver_data,
    empty_driver_data, update_best_sector, add_compound, driver_entry_of, py_or_str,
    rank_session_entries, entry_sort_key, normalize_lap_time, compound_delta_of,
    dictGet, TIRE_COMPOUND_DELTAS, List.find?, List.enum, List.enumFrom,
    meeting_pooled, all_driver_times, overall_entries_of]

theorem c6_witness_len :
    (meeting_pecking_order_of 11 [c6_witness_session]).overall_rankings.length = 1 := by
  simp [c6_witness_session, session_pecking_order_of, session_valid_laps,
    session_total_laps_of, driver_data_of, group_by, group_fuel, update_driver_data,
    empty_driver_data, update_best_sector, add_compound, driver_entry_of, py_or_str,
    rank_session_entries, entry_sort_key, normalize_lap_time, compound_delta_of,
    dictGet, TIRE_COMPOUND_DELTAS, List.find?, List.enum, List.enumFrom,
    meeting_pooled, all_driver_times, overall_entries_of, meeting_driver_info,
    upsert, session_weight, SESSION_WEIGHTS, meeting_pecking_order_of, rank_by]

/-- Witness for C6 on a one-session meeting. -/
theorem c6_meeting_pecking_order_witness :
    ((session_pecking_order_of c6_witness_session).driver_rankings.filter
        (fun re => decide (re.entry.driver_name = "B"))).length ≤ 1 ∧
    session_weight "TEST SESSION" = 1/2 ∧
    ((meeting_pecking_order_of 11 [c6_witness_session]).overall_rankings.get
        ⟨0, by rw [c6_witness_len]; norm_num⟩).position = 1 ∧
    ((meeting_pecking_order_of 11 [c6_witness_session]).overall_rankings.get
        ⟨0, by rw [c6_witness_len]; norm_num⟩).gap_to_leader = 0 ∧
    ∃ ts, (((overall_entries_of [c6_witness_session]).head c6_witness_ov_ne).driver_name, ts)
        ∈ all_driver_times [c6_witness_session] ∧ ts ≠ [] ∧
      0 < (ts.map (fun t => session_weight t.2)).sum ∧
      ((overall_entries_of [c6_witness_session]).head c6_witness_ov_ne).pace
        = (ts.map (fun t => t.1 * session_weight t.2)).sum /
          (ts.map (fun t => session_weight t.2)).sum ∧
      ((overall_entries_of [c6_witness_session]).head c6_witness_ov_ne).session_count
        = ts.length := by
  have h := c6_meeting_pecking_order 11 [c6_witness_session]
  refine ⟨?_, ?_, ?_, ?_, ?_⟩
  · exact (h.1 "B" [((90 : ℚ), "Practice 1")]
      (by rw [c6_witness_adt]; exact List.mem_cons_self _ _)).2
      c6_witness_session (List.mem_cons_self _ _)
  · exact h.2.2.1.2.2.2.2.2.2.2 "TEST SESSION" (by decide)
  · obtain ⟨hpos, -⟩ := h.2.2.2.2.2 0 (by rw [c6_witness_len]; norm_num)
    exact hpos
  · obtain ⟨-, h0, -, hz, -⟩ := h.2.2.2.2.2 0 (by rw [c6_witness_len]; norm_num)
    exact hz rfl
  · exact h.2.1 _ (List.head_mem _)

/-- Witness for C7: fresh vs 4-lap-old tires in Practice 1. -/
theorem c7_tire_age_strict_mono_witness : (4469/50 : ℚ) < 179/2 :=
  c7_tire_age_strict_mono 90 (some "HARD") "Practice 1" 1 58 0 4 (by norm_num)
    (by norm_num) (179/2) (4469/50)
    (by rw [normalize_lap_time_some]
        simp only [compound_delta_of_medium]
        simp [compound_delta_of, dictGet, TIRE_COMPOUND_DELTAS, List.find?,
          degradation_of, fuel_adjustment_of]
        norm_num)
    (by rw [normalize_lap_time_some]
        simp only [compound_delta_of_medium]
        simp [compound_delta_of, dictGet, TIRE_COMPOUND_DELTAS, List.find?,
          degradation_of, fuel_adjustment_of, TIRE_DEGRADATION_PER_LAP]
        norm_num)

end F1
